import Mathlib

/-!
Shallow embedding of the node discovery/match-tracking engine of
`src/node.rs` (ros2-client): identifier types, the match-tracker maps and
their mutation by the discovery loop (`spin`), the event-distribution hub
(`status_receiver` / `send_status_event`), the wait-for-match primitive
(`wait_for_writer` / `wait_for_reader`), the entity registry
(`add_reader` / `add_writer` / `generate_node_info`), and the stop channel
used by `Drop for Node`.

Machine-level conventions: `GUID` and `Gid` are opaque totally ordered
identifiers, embedded as `Nat`.  `BTreeSet<GUID>` becomes `Finset Nat`;
`BTreeMap<K, V>` becomes an association list with unique keys, with
lookup/insert operations mirroring the `BTreeMap` calls used by the source.
Log side effects (`error!`, `warn!`) are made visible as explicit `Bool`
flags in the return values of the embedded functions.
-/

set_option autoImplicit false

namespace Ros2Client

/-- Opaque, totally ordered endpoint identifier (`rustdds::GUID`). -/
abbrev GUID := Nat

/-- Opaque, totally ordered identifier (`gid::Gid`), used for participants
and endpoints in `ros_discovery_info` bookkeeping. -/
abbrev Gid := Nat

/-- The transport status events matched by `spin` (node.rs 277-302): the four
recognized variants, plus `OtherStatus` standing for every other
`DomainParticipantStatusEvent` variant, all of which fall into the `_ => {}`
arm.  The `ReaderLost`/`WriterLost` arms of the source bind only the `guid`
field and ignore the rest (`{guid, ..}`). -/
inductive DomainParticipantStatusEvent where
  | RemoteReaderMatched (local_writer : GUID) (remote_reader : GUID)
  | RemoteWriterMatched (local_reader : GUID) (remote_writer : GUID)
  | ReaderLost (guid : GUID)
  | WriterLost (guid : GUID)
  | OtherStatus (tag : Nat)
deriving DecidableEq

/-- Modelled from the spec: `NodeEntitiesInfo` lives in `entities_info.rs`,
which is not under `src/`.  Per the spec's data model it is the node
descriptor `{ name, namespace, reader_ids : sequence, writer_ids : sequence }`;
`add_reader`/`add_writer` append one id to the respective sequence, and
`new` starts both sequences empty. -/
structure NodeEntitiesInfo where
  node_name : String
  node_namespace : String
  reader_gid_seq : List Gid
  writer_gid_seq : List Gid
deriving DecidableEq

/-- Modelled from the spec: constructor of an empty node descriptor. -/
def NodeEntitiesInfo.new (name node_namespace : String) : NodeEntitiesInfo :=
  { node_name := name, node_namespace := node_namespace,
    reader_gid_seq := [], writer_gid_seq := [] }

/-- Modelled from the spec: append a reader id to the descriptor. -/
def NodeEntitiesInfo.add_reader (i : NodeEntitiesInfo) (g : Gid) : NodeEntitiesInfo :=
  { i with reader_gid_seq := i.reader_gid_seq ++ [g] }

/-- Modelled from the spec: append a writer id to the descriptor. -/
def NodeEntitiesInfo.add_writer (i : NodeEntitiesInfo) (g : Gid) : NodeEntitiesInfo :=
  { i with writer_gid_seq := i.writer_gid_seq ++ [g] }

/-- Modelled from the spec: `ParticipantEntitiesInfo` (also from
`entities_info.rs`), a graph snapshot; node.rs uses exactly the two fields
`gid` (the participant id) and `node_entities_info_seq` (its descriptors). -/
structure ParticipantEntitiesInfo where
  gid : Gid
  node_entities_info_seq : List NodeEntitiesInfo
deriving DecidableEq

/-- Discovery events distributed to consumers (node.rs 91-95). -/
inductive NodeEvent where
  | DDS (e : DomainParticipantStatusEvent)
  | ROS (p : ParticipantEntitiesInfo)
deriving DecidableEq

/-! ## Match Tracker maps

`BTreeMap<GUID, BTreeSet<GUID>>` embedded as a unique-key association list
`List (GUID × Finset GUID)`. -/

/-- Association-list embedding of `BTreeMap<GUID, BTreeSet<GUID>>`. -/
abbrev MatchMap := List (GUID × Finset GUID)

/-- `map.get(&k)` on a `BTreeMap`. -/
def MatchMap.find? : MatchMap → GUID → Option (Finset GUID)
  | [], _ => none
  | (k', s) :: m, k => if k' = k then some s else MatchMap.find? m k

/-- `map.contains_key(&k)`: the key is present. -/
def MatchMap.hasKey : MatchMap → GUID → Bool
  | [], _ => false
  | (k', _) :: m, k => k' == k || MatchMap.hasKey m k

/-- The key list of the map. -/
def MatchMap.keys (m : MatchMap) : List GUID := m.map Prod.fst

/-- `map.entry(k).and_modify(|s| s.insert(v)).or_insert(BTreeSet::from([v]))`
(node.rs 278-281 and 284-287): add `v` to the set stored under `k`, creating
the entry if the key is absent. -/
def MatchMap.insertMatch : MatchMap → GUID → GUID → MatchMap
  | [], k, v => [(k, {v})]
  | (k', s) :: m, k, v =>
      if k' = k then (k', insert v s) :: m
      else (k', s) :: MatchMap.insertMatch m k v

/-- The loop `for (_local, set) in map.iter_mut() { set.remove(&v); }`
(node.rs 289-300): remove `v` from the set of every entry. -/
def MatchMap.removeFromAll (m : MatchMap) (v : GUID) : MatchMap :=
  m.map (fun p => (p.1, p.2.erase v))

/-- The two Match Tracker maps of a `Node` (node.rs 123-124). -/
structure MatchMaps where
  readers_to_remote_writers : MatchMap
  writers_to_remote_readers : MatchMap
deriving DecidableEq

/-- Both maps start empty at node construction (node.rs 174-175). -/
def emptyMatchMaps : MatchMaps := { readers_to_remote_writers := [], writers_to_remote_readers := [] }

/-- The `dp_status_event` match of the discovery loop (node.rs 276-303):
how one transport status event mutates the Match Tracker maps.  The
unrecognized variants (`_ => {}`) leave both maps unchanged. -/
def spin_process_status_event (s : MatchMaps) (e : DomainParticipantStatusEvent) : MatchMaps :=
  match e with
  | .RemoteReaderMatched local_writer remote_reader =>
      { s with writers_to_remote_readers :=
          s.writers_to_remote_readers.insertMatch local_writer remote_reader }
  | .RemoteWriterMatched local_reader remote_writer =>
      { s with readers_to_remote_writers :=
          s.readers_to_remote_writers.insertMatch local_reader remote_writer }
  | .ReaderLost guid =>
      { s with writers_to_remote_readers :=
          s.writers_to_remote_readers.removeFromAll guid }
  | .WriterLost guid =>
      { s with readers_to_remote_writers :=
          s.readers_to_remote_writers.removeFromAll guid }
  | .OtherStatus _ => s

/-- Match-map state after the discovery loop processed the events `es`,
starting from state `s`. -/
def runStatusEventsFrom (s : MatchMaps) (es : List DomainParticipantStatusEvent) : MatchMaps :=
  es.foldl spin_process_status_event s

/-- Match-map state after the discovery loop processed the events `es`,
starting from the empty maps of a fresh node. -/
def runStatusEvents (es : List DomainParticipantStatusEvent) : MatchMaps :=
  runStatusEventsFrom emptyMatchMaps es

/-- `get_publisher_count` (node.rs 403-414).  Second component records
whether the `error!` branch (unknown subscriber) was taken. -/
def get_publisher_count (s : MatchMaps) (subscription_guid : GUID) : Nat × Bool :=
  match s.readers_to_remote_writers.find? subscription_guid with
  | some ws => (ws.card, false)
  | none => (0, true)

/-- `get_subscription_count` (node.rs 416-427), with the same `error!` flag. -/
def get_subscription_count (s : MatchMaps) (publisher_guid : GUID) : Nat × Bool :=
  match s.writers_to_remote_readers.find? publisher_guid with
  | some rs => (rs.card, false)
  | none => (0, true)

/-! ## External Node Table -/

/-- Association-list embedding of `BTreeMap<Gid, Vec<NodeEntitiesInfo>>`
(`external_nodes`, node.rs 127). -/
abbrev ExtMap := List (Gid × List NodeEntitiesInfo)

/-- `map.get(&k)` on the external-node table. -/
def ExtMap.find? : ExtMap → Gid → Option (List NodeEntitiesInfo)
  | [], _ => none
  | (k', v) :: m, k => if k' = k then some v else ExtMap.find? m k

/-- `map.insert(k, v)` on a `BTreeMap`: replace the value stored under `k`
wholesale, creating the entry if the key is absent (node.rs 264). -/
def ExtMap.insert : ExtMap → Gid → List NodeEntitiesInfo → ExtMap
  | [], k, v => [(k, v)]
  | (k', v') :: m, k, v =>
      if k' = k then (k', v) :: m
      else (k', v') :: ExtMap.insert m k v

/-! ## Discovery Loop ("spin", node.rs 241-312)

One iteration of the `loop { futures::select! { ... } }` body, embedded as a
step function over an explicit machine state.  The three `select!` arms
become the three `SpinInput` constructors.  The only exit from the loop is
the `break` taken on the stop signal, after which `spin` logs and returns
`Ok(())` (node.rs 310-311); the machine phase `Stopped` is that terminal,
already-returned configuration, and a stopped machine processes nothing. -/

/-- The two phases of the discovery loop: still looping, or exited. -/
inductive SpinPhase where
  | Running
  | Stopped
deriving DecidableEq

/-- One value produced by one of the three event sources of `spin`:
the stop channel, the `ros_discovery_stream` (whose items are
`Ok((part_update, _msg_info))` or a decode/transport error, the message
info being ignored), and the `dds_status_stream`. -/
inductive SpinInput where
  | stopSignal
  | graphUpdate (item : Except Nat ParticipantEntitiesInfo)
  | transportEvent (e : DomainParticipantStatusEvent)

/-- The loop-owned state: phase plus the two shared tables `spin` writes. -/
structure SpinMachine where
  phase : SpinPhase
  matchTracker : MatchMaps
  external_nodes : ExtMap

/-- Observable outcome of one loop iteration: the successor state, the
event handed to `send_status_event` (if any), and whether the `warn!`
branch for a `ros_discovery_info` error was taken. -/
structure SpinStepResult where
  machine : SpinMachine
  broadcast : Option NodeEvent
  warnLogged : Bool

/-- One iteration of the `spin` loop body (node.rs 253-308).  A machine in
phase `Stopped` has already returned and consumes nothing. -/
def spinStep (m : SpinMachine) (i : SpinInput) : SpinStepResult :=
  match m.phase with
  | .Stopped => { machine := m, broadcast := none, warnLogged := false }
  | .Running =>
    match i with
    | .stopSignal =>
        { machine := { m with phase := .Stopped }, broadcast := none, warnLogged := false }
    | .graphUpdate (.ok part_update) =>
        { machine := { m with external_nodes :=
              m.external_nodes.insert part_update.gid part_update.node_entities_info_seq },
          broadcast := some (.ROS part_update),
          warnLogged := false }
    | .graphUpdate (.error _) =>
        { machine := m, broadcast := none, warnLogged := true }
    | .transportEvent e =>
        { machine := { m with matchTracker := spin_process_status_event m.matchTracker e },
          broadcast := some (.DDS e),
          warnLogged := false }

/-- Run the loop over a list of inputs. -/
def spinRun (m : SpinMachine) : List SpinInput → SpinMachine
  | [] => m
  | i :: is => spinRun (spinStep m i).machine is

/-- Return value of `spin` as determined by the phase: the loop body's only
exit is the `break` on the stop signal, after which `spin` returns `Ok(())`
(node.rs 309-311), so the function has returned — successfully — exactly
when the machine has reached `Stopped`. -/
def spin_return_value : SpinPhase → Option (Except String Unit)
  | .Running => none
  | .Stopped => some (.ok ())

/-! ## Stop channel and `Drop for Node` (node.rs 165, 846-856) -/

/-- The `async_channel::bounded(1)` stop channel (node.rs 165): how many
messages are queued (capacity 1) and whether the receiver side is gone. -/
structure StopChannel where
  queued : Nat
  closed : Bool
deriving DecidableEq

/-- Result of `Sender::try_send` on the stop channel. -/
inductive StopSendResult where
  | ok
  | errFull
  | errClosed
deriving DecidableEq

/-- `stop_spin_sender.try_send(())` on the capacity-1 channel: non-blocking;
fails with `Closed` if the receiver is gone, with `Full` if a message is
already queued, and otherwise enqueues exactly one message. -/
def stop_try_send (ch : StopChannel) : StopChannel × StopSendResult :=
  if ch.closed then (ch, .errClosed)
  else if 1 ≤ ch.queued then (ch, .errFull)
  else ({ ch with queued := ch.queued + 1 }, .ok)

/-- The stop-notification part of `Drop for Node` (node.rs 848-851):
`try_send(()).unwrap_or_else(|e| error!(...))`.  Second component records
whether the `error!` branch was taken; a failed send changes nothing else. -/
def drop_node_stop_notify (ch : StopChannel) : StopChannel × Bool :=
  match stop_try_send ch with
  | (ch', .ok) => (ch', false)
  | (ch', _) => (ch', true)

/-! ## Event Distribution Hub (node.rs 317-344) -/

/-- One entry of `status_event_senders`: the bounded channel behind an
`async_channel::Sender<NodeEvent>`, seen from the producer side — its
queued events, its capacity, and whether the consumer side is closed. -/
structure Consumer where
  queue : List NodeEvent
  capacity : Nat
  closed : Bool
deriving DecidableEq

/-- `Sender::try_send(event)` (node.rs 331): non-blocking; `Closed` if the
receiver is gone, `Full` if the queue is at capacity, otherwise the event is
appended to the queue. -/
inductive TrySendError where
  | Full
  | Closed
deriving DecidableEq

/-- Non-blocking send on one consumer channel. -/
def Consumer.try_send (c : Consumer) (e : NodeEvent) : Consumer × Option TrySendError :=
  if c.closed then (c, some .Closed)
  else if c.capacity ≤ c.queue.length then (c, some .Full)
  else ({ c with queue := c.queue ++ [e] }, none)

/-- The effect of one `try_send` attempt on the consumer itself. -/
def attemptSend (e : NodeEvent) (c : Consumer) : Consumer :=
  (c.try_send e).1

/-- `status_receiver` (node.rs 317-325): create a fresh bounded(8) channel,
append its sender to the list, hand back the receiver (here: the index of
the new, initially empty consumer entry). -/
def status_receiver (senders : List Consumer) : List Consumer × Nat :=
  (senders ++ [{ queue := [], capacity := 8, closed := false }], senders.length)

/-- Ascending indices of the list elements satisfying `p`.  This is the
`closed` vector collected by the enumeration loop of `send_status_event`
(node.rs 330-338): index `i` is pushed exactly when consumer `i` reports
`TrySendError::Closed`, i.e. when its `closed` flag is set (which
`try_send` never changes). -/
def markedIdx {α : Type} (p : α → Bool) : List α → List Nat
  | [] => []
  | a :: l => if p a then 0 :: (markedIdx p l).map Nat.succ else (markedIdx p l).map Nat.succ

/-- `Vec::swap_remove(i)`: replace element `i` with the last element and
pop the last (node.rs 342). -/
def swapRemove {α : Type} (l : List α) (i : Nat) : List α :=
  match l.getLast? with
  | none => l
  | some last => (l.set i last).dropLast

/-- `send_status_event` (node.rs 327-344): one `try_send` attempt per
consumer in the list (the single Rust pass both updates the channels and
collects the closed indices; split here into the update map and the index
computation, which agree because `try_send` never changes the `closed`
flag), then `swap_remove` of the collected indices in reverse order. -/
def send_status_event (senders : List Consumer) (e : NodeEvent) : List Consumer :=
  let sent := senders.map (attemptSend e)
  let closed := markedIdx (fun c => c.closed) senders
  List.foldl swapRemove sent closed.reverse

/-! ## Wait-for-Match primitive (node.rs 347-401) -/

/-- The pattern of the `if let` in `wait_for_writer`'s loop (node.rs
363-371): a `RemoteWriterMatched` whose `local_reader` equals the awaited
reader (every other event is discarded). -/
def matchesRemoteWriterFor (reader : GUID) (ev : NodeEvent) : Bool :=
  match ev with
  | .DDS (.RemoteWriterMatched local_reader _) => local_reader == reader
  | _ => false

/-- The pattern of the `if let` in `wait_for_reader`'s loop (node.rs
389-397): a `RemoteReaderMatched` whose `local_writer` equals the awaited
writer. -/
def matchesRemoteReaderFor (writer : GUID) (ev : NodeEvent) : Bool :=
  match ev with
  | .DDS (.RemoteReaderMatched local_writer _) => local_writer == writer
  | _ => false

/-- The waiting loop (node.rs 361-372): read events from the consumer
handle in order until one satisfies `p`, then `break`.  Returns the number
of events consumed, `none` when the (finite, abstracted) queue runs out
without a match — the caller would still be suspended. -/
def waitLoop (p : NodeEvent → Bool) : List NodeEvent → Option Nat
  | [] => none
  | ev :: rest => if p ev then some 1 else (waitLoop p rest).map (· + 1)

/-- The `already_present` check of `wait_for_writer` (node.rs 352-358):
`map.get(&reader).map(|writers| !writers.is_empty()).unwrap_or(false)`. -/
def readerAlreadyPresent (s : MatchMaps) (reader : GUID) : Bool :=
  ((s.readers_to_remote_writers.find? reader).map (fun ws => !(ws.card == 0))).getD false

/-- The `already_present` check of `wait_for_reader` (node.rs 380-386). -/
def writerAlreadyPresent (s : MatchMaps) (writer : GUID) : Bool :=
  ((s.writers_to_remote_readers.find? writer).map (fun rs => !(rs.card == 0))).getD false

/-- `wait_for_writer` (node.rs 347-374) after the subscription step: `s` is
the Match Tracker state read by the `already_present` check, `queue` the
sequence of events subsequently delivered on the consumer handle obtained
first.  Result: number of events consumed before returning (`some 0`:
returned immediately), `none`: still waiting after `queue`. -/
def wait_for_writer (s : MatchMaps) (reader : GUID) (queue : List NodeEvent) : Option Nat :=
  if readerAlreadyPresent s reader then some 0
  else waitLoop (matchesRemoteWriterFor reader) queue

/-- `wait_for_reader` (node.rs 376-401), symmetric to `wait_for_writer`. -/
def wait_for_reader (s : MatchMaps) (writer : GUID) (queue : List NodeEvent) : Option Nat :=
  if writerAlreadyPresent s writer then some 0
  else waitLoop (matchesRemoteReaderFor writer) queue

/-- `wait_for_writer` racing the discovery loop over the transport events
`es`: the wait subscribes (node.rs 349, the first step) after the loop has
processed `k` events, and the Match Tracker check (node.rs 352-358) runs
after the loop has processed `k'` events, `k ≤ k'` since the check comes
after the subscription.  Because the subscription comes first, the consumer
queue receives every status event broadcast from that point on (assuming
best-effort delivery succeeds), i.e. the events from index `k` onward. -/
def waitForWriterScenario (es : List DomainParticipantStatusEvent) (k k' : Nat)
    (reader : GUID) : Option Nat :=
  wait_for_writer (runStatusEvents (es.take k')) reader ((es.drop k).map NodeEvent.DDS)

/-! ## Entity Registry (node.rs 117-118, 187-214) -/

/-- The registry-relevant fields of `Node`: its name and namespace, the
owned reader/writer sets (node.rs 117-118), and the GUIDs of the built-in
writers used by `generate_node_info` (node.rs 190-193). -/
structure NodeRegistry where
  name : String
  node_namespace : String
  readers : Finset Gid
  writers : Finset Gid
  rosout_writer : Option Gid
  parameter_events_writer : Gid
deriving DecidableEq

/-- `generate_node_info` (node.rs 187-204): a fresh descriptor gets the
parameter-events writer, the rosout writer when enabled, then every
registered reader and writer; `BTreeSet` iteration is in ascending order. -/
def generate_node_info (n : NodeRegistry) : NodeEntitiesInfo :=
  let i0 := NodeEntitiesInfo.new n.name n.node_namespace
  let i1 := i0.add_writer n.parameter_events_writer
  let i2 := match n.rosout_writer with
    | some row => i1.add_writer row
    | none => i1
  let i3 := (n.readers.sort (· ≤ ·)).foldl NodeEntitiesInfo.add_reader i2
  (n.writers.sort (· ≤ ·)).foldl NodeEntitiesInfo.add_writer i3

/-- `add_reader` (node.rs 206-209): insert into the owned set, then
regenerate the descriptor and propagate it via `ros_context.update_node`.
Second component is the descriptor handed to `update_node` by this call. -/
def add_reader (n : NodeRegistry) (reader : Gid) : NodeRegistry × NodeEntitiesInfo :=
  let n' := { n with readers := insert reader n.readers }
  (n', generate_node_info n')

/-- `add_writer` (node.rs 211-214), symmetric to `add_reader`. -/
def add_writer (n : NodeRegistry) (writer : Gid) : NodeRegistry × NodeEntitiesInfo :=
  let n' := { n with writers := insert writer n.writers }
  (n', generate_node_info n')

/-! ## Lemmas about the Match Tracker map operations -/

lemma MatchMap.find?_removeFromAll (m : MatchMap) (v k : GUID) :
    (m.removeFromAll v).find? k = (m.find? k).map (fun s => s.erase v) := by
  induction m with
  | nil => rfl
  | cons p m ih =>
    obtain ⟨k', s⟩ := p
    by_cases h : k' = k
    · simp [MatchMap.removeFromAll, MatchMap.find?, h]
    · simpa [MatchMap.removeFromAll, MatchMap.find?, h] using ih

lemma MatchMap.keys_removeFromAll (m : MatchMap) (v : GUID) :
    (m.removeFromAll v).keys = m.keys := by
  simp [MatchMap.removeFromAll, MatchMap.keys, List.map_map]

lemma MatchMap.hasKey_removeFromAll (m : MatchMap) (v k : GUID) :
    (m.removeFromAll v).hasKey k = m.hasKey k := by
  induction m with
  | nil => rfl
  | cons p m ih =>
    show (p.1 == k || MatchMap.hasKey (MatchMap.removeFromAll m v) k)
        = (p.1 == k || MatchMap.hasKey m k)
    rw [ih]

lemma MatchMap.hasKey_insertMatch_self (m : MatchMap) (k v : GUID) :
    (m.insertMatch k v).hasKey k = true := by
  induction m with
  | nil => simp [MatchMap.insertMatch, MatchMap.hasKey]
  | cons p m ih =>
    obtain ⟨k', s⟩ := p
    by_cases h : k' = k <;> simp [MatchMap.insertMatch, MatchMap.hasKey, h, ih]

lemma MatchMap.hasKey_insertMatch_mono (m : MatchMap) (k v r : GUID)
    (h : m.hasKey r = true) : (m.insertMatch k v).hasKey r = true := by
  induction m with
  | nil => simp [MatchMap.hasKey] at h
  | cons p m ih =>
    obtain ⟨k', s⟩ := p
    simp only [MatchMap.hasKey, Bool.or_eq_true, beq_iff_eq] at h
    by_cases hk : k' = k
    · simp only [MatchMap.insertMatch, if_pos hk, MatchMap.hasKey, Bool.or_eq_true,
        beq_iff_eq]
      exact h
    · simp only [MatchMap.insertMatch, if_neg hk, MatchMap.hasKey, Bool.or_eq_true,
        beq_iff_eq]
      rcases h with h | h
      · exact Or.inl h
      · exact Or.inr (ih h)

lemma MatchMap.find?_insertMatch_self (m : MatchMap) (k v : GUID) :
    (m.insertMatch k v).find? k = some (insert v ((m.find? k).getD ∅)) := by
  induction m with
  | nil => simp [MatchMap.insertMatch, MatchMap.find?]
  | cons p m ih =>
    obtain ⟨k', s⟩ := p
    by_cases h : k' = k <;> simp [MatchMap.insertMatch, MatchMap.find?, h, ih]

lemma MatchMap.find?_insertMatch_ne (m : MatchMap) (k v r : GUID) (h : k ≠ r) :
    (m.insertMatch k v).find? r = m.find? r := by
  have hrk : r ≠ k := Ne.symm h
  induction m with
  | nil => simp [MatchMap.insertMatch, MatchMap.find?, h]
  | cons p m ih =>
    obtain ⟨k', s⟩ := p
    by_cases hk : k' = k
    · subst hk
      simp [MatchMap.insertMatch, MatchMap.find?, h]
    · by_cases hr : k' = r <;>
        simp [MatchMap.insertMatch, MatchMap.find?, hk, hr, hrk, ih]

lemma MatchMap.insertMatch_idem (m : MatchMap) (k v : GUID) :
    (m.insertMatch k v).insertMatch k v = m.insertMatch k v := by
  induction m with
  | nil => simp [MatchMap.insertMatch, Finset.insert_idem]
  | cons p m ih =>
    obtain ⟨k', s⟩ := p
    by_cases h : k' = k <;> simp [MatchMap.insertMatch, h, Finset.insert_idem, ih]

lemma MatchMap.foldl_insertMatch_single (r : GUID) (S : Finset GUID) (ws : List GUID) :
    List.foldl (fun mm w => MatchMap.insertMatch mm r w) [(r, S)] ws
      = [(r, S ∪ ws.toFinset)] := by
  induction ws generalizing S with
  | nil => simp
  | cons w ws ih =>
    have step : MatchMap.insertMatch [(r, S)] r w = [(r, insert w S)] := by
      simp [MatchMap.insertMatch]
    calc List.foldl (fun mm w => MatchMap.insertMatch mm r w) [(r, S)] (w :: ws)
        = List.foldl (fun mm w => MatchMap.insertMatch mm r w) [(r, insert w S)] ws := by
          simp [step]
      _ = [(r, insert w S ∪ ws.toFinset)] := ih (insert w S)
      _ = [(r, S ∪ (w :: ws).toFinset)] := by
          simp [List.toFinset_cons, Finset.insert_union, Finset.union_insert]

/-! ## Lemmas about the External Node Table -/

lemma ExtMap.find?_insert_self (m : ExtMap) (k : Gid) (v : List NodeEntitiesInfo) :
    (m.insert k v).find? k = some v := by
  induction m with
  | nil => simp [ExtMap.insert, ExtMap.find?]
  | cons p m ih =>
    obtain ⟨k', v'⟩ := p
    by_cases h : k' = k <;> simp [ExtMap.insert, ExtMap.find?, h, ih]

lemma ExtMap.find?_insert_ne (m : ExtMap) (k r : Gid) (v : List NodeEntitiesInfo)
    (h : k ≠ r) : (m.insert k v).find? r = m.find? r := by
  have hrk : r ≠ k := Ne.symm h
  induction m with
  | nil => simp [ExtMap.insert, ExtMap.find?, h]
  | cons p m ih =>
    obtain ⟨k', v'⟩ := p
    by_cases hk : k' = k
    · subst hk
      simp [ExtMap.insert, ExtMap.find?, h]
    · by_cases hr : k' = r <;> simp [ExtMap.insert, ExtMap.find?, hk, hr, hrk, ih]

/-! ## Lemmas about the discovery loop's event processing -/

lemma hasKey_reader_step_mono (s : MatchMaps) (e : DomainParticipantStatusEvent)
    (r : GUID) (h : s.readers_to_remote_writers.hasKey r = true) :
    (spin_process_status_event s e).readers_to_remote_writers.hasKey r = true := by
  cases e with
  | RemoteReaderMatched lw rr => simpa [spin_process_status_event] using h
  | RemoteWriterMatched lr rw =>
      simpa [spin_process_status_event] using
        MatchMap.hasKey_insertMatch_mono _ lr rw r h
  | ReaderLost g => simpa [spin_process_status_event] using h
  | WriterLost g =>
      simpa [spin_process_status_event, MatchMap.hasKey_removeFromAll] using h
  | OtherStatus tag => simpa [spin_process_status_event] using h

lemma hasKey_writer_step_mono (s : MatchMaps) (e : DomainParticipantStatusEvent)
    (w : GUID) (h : s.writers_to_remote_readers.hasKey w = true) :
    (spin_process_status_event s e).writers_to_remote_readers.hasKey w = true := by
  cases e with
  | RemoteReaderMatched lw rr =>
      simpa [spin_process_status_event] using
        MatchMap.hasKey_insertMatch_mono _ lw rr w h
  | RemoteWriterMatched lr rw => simpa [spin_process_status_event] using h
  | ReaderLost g =>
      simpa [spin_process_status_event, MatchMap.hasKey_removeFromAll] using h
  | WriterLost g => simpa [spin_process_status_event] using h
  | OtherStatus tag => simpa [spin_process_status_event] using h

lemma hasKey_reader_run_mono (es : List DomainParticipantStatusEvent) (s : MatchMaps)
    (r : GUID) (h : s.readers_to_remote_writers.hasKey r = true) :
    (runStatusEventsFrom s es).readers_to_remote_writers.hasKey r = true := by
  induction es generalizing s with
  | nil => exact h
  | cons e es ih => exact ih _ (hasKey_reader_step_mono s e r h)

lemma hasKey_writer_run_mono (es : List DomainParticipantStatusEvent) (s : MatchMaps)
    (w : GUID) (h : s.writers_to_remote_readers.hasKey w = true) :
    (runStatusEventsFrom s es).writers_to_remote_readers.hasKey w = true := by
  induction es generalizing s with
  | nil => exact h
  | cons e es ih => exact ih _ (hasKey_writer_step_mono s e w h)

lemma runStatusEventsFrom_cons (s : MatchMaps) (e : DomainParticipantStatusEvent)
    (es : List DomainParticipantStatusEvent) :
    runStatusEventsFrom s (e :: es) = runStatusEventsFrom (spin_process_status_event s e) es := rfl

lemma runStatusEventsFrom_append (s : MatchMaps)
    (es1 es2 : List DomainParticipantStatusEvent) :
    runStatusEventsFrom s (es1 ++ es2) = runStatusEventsFrom (runStatusEventsFrom s es1) es2 := by
  simp [runStatusEventsFrom, List.foldl_append]

lemma foldl_matched_writers (r : GUID) (ws : List GUID) (s : MatchMaps) :
    runStatusEventsFrom s (ws.map (DomainParticipantStatusEvent.RemoteWriterMatched r)) =
      { s with readers_to_remote_writers :=
          List.foldl (fun mm w => MatchMap.insertMatch mm r w) s.readers_to_remote_writers ws } := by
  induction ws generalizing s with
  | nil => rfl
  | cons w ws ih =>
      simp only [List.map_cons, runStatusEventsFrom_cons, spin_process_status_event, ih,
        List.foldl_cons]

lemma foldl_matched_readers (lw : GUID) (rs : List GUID) (s : MatchMaps) :
    runStatusEventsFrom s (rs.map (DomainParticipantStatusEvent.RemoteReaderMatched lw)) =
      { s with writers_to_remote_readers :=
          List.foldl (fun mm rr => MatchMap.insertMatch mm lw rr) s.writers_to_remote_readers rs } := by
  induction rs generalizing s with
  | nil => rfl
  | cons rr rs ih =>
      simp only [List.map_cons, runStatusEventsFrom_cons, spin_process_status_event, ih,
        List.foldl_cons]

lemma foldl_insertMatch_from_nil (r : GUID) (ws : List GUID) :
    List.foldl (fun mm w => MatchMap.insertMatch mm r w) ([] : MatchMap) ws
      = if ws.isEmpty then [] else [(r, ws.toFinset)] := by
  cases ws with
  | nil => rfl
  | cons w ws =>
      have h0 : MatchMap.insertMatch [] r w = [(r, {w})] := rfl
      simp only [List.foldl_cons, h0, MatchMap.foldl_insertMatch_single, List.isEmpty_cons,
        List.toFinset_cons, Bool.false_eq_true, if_false]
      rw [← Finset.insert_eq]

/-! ## Lemmas about the waiting loop -/

/-- Position `m` holds the first event of `q` satisfying `p`. -/
def firstMatchAt (p : NodeEvent → Bool) (q : List NodeEvent) (m : Nat) : Prop :=
  (∃ ev, q[m]? = some ev ∧ p ev = true) ∧
  ∀ i, i < m → ∀ ev, q[i]? = some ev → p ev = false

lemma firstMatchAt_cons_zero (p : NodeEvent → Bool) (ev : NodeEvent)
    (rest : List NodeEvent) : firstMatchAt p (ev :: rest) 0 ↔ p ev = true := by
  constructor
  · rintro ⟨⟨e, he, hpe⟩, -⟩
    simp only [List.getElem?_cons_zero, Option.some.injEq] at he
    rwa [he]
  · intro hp
    exact ⟨⟨ev, by simp, hp⟩, fun i hi => absurd hi (Nat.not_lt_zero i)⟩

lemma firstMatchAt_cons_succ (p : NodeEvent → Bool) (ev : NodeEvent)
    (rest : List NodeEvent) (m : Nat) :
    firstMatchAt p (ev :: rest) (m + 1) ↔ (p ev = false ∧ firstMatchAt p rest m) := by
  constructor
  · rintro ⟨⟨e, he, hpe⟩, hmin⟩
    refine ⟨hmin 0 (Nat.succ_pos m) ev (by simp), ⟨e, by simpa using he, hpe⟩, ?_⟩
    intro i hi e' he'
    exact hmin (i + 1) (Nat.succ_lt_succ hi) e' (by simpa using he')
  · rintro ⟨hp0, ⟨e, he, hpe⟩, hmin⟩
    refine ⟨⟨e, by simpa using he, hpe⟩, ?_⟩
    intro i hi e' he'
    cases i with
    | zero =>
        simp only [List.getElem?_cons_zero, Option.some.injEq] at he'
        rwa [← he']
    | succ j =>
        exact hmin j (Nat.lt_of_succ_lt_succ hi) e' (by simpa using he')

lemma waitLoop_eq_some_iff (p : NodeEvent → Bool) (q : List NodeEvent) (n : Nat) :
    waitLoop p q = some n ↔ ∃ m, n = m + 1 ∧ firstMatchAt p q m := by
  induction q generalizing n with
  | nil =>
      simp only [waitLoop]
      constructor
      · intro h; cases h
      · rintro ⟨m, -, ⟨e, he, -⟩, -⟩
        simp at he
  | cons ev rest ih =>
      by_cases hp : p ev = true
      · simp only [waitLoop, if_pos hp]
        constructor
        · intro h
          obtain rfl : (1 : Nat) = n := by injection h
          exact ⟨0, rfl, (firstMatchAt_cons_zero p ev rest).mpr hp⟩
        · rintro ⟨m, rfl, hfm⟩
          cases m with
          | zero => rfl
          | succ m' =>
              obtain ⟨h0, -⟩ := (firstMatchAt_cons_succ p ev rest m').mp hfm
              rw [hp] at h0; cases h0
      · have hp' : p ev = false := by
          cases hpe : p ev
          · rfl
          · exact absurd hpe hp
        simp only [waitLoop, if_neg hp]
        constructor
        · intro h
          obtain ⟨n', hn', hn⟩ := Option.map_eq_some'.mp h
          obtain ⟨m, rfl, hfm⟩ := ih n' |>.mp hn'
          exact ⟨m + 1, by omega, (firstMatchAt_cons_succ p ev rest m).mpr ⟨hp', hfm⟩⟩
        · rintro ⟨m, rfl, hfm⟩
          cases m with
          | zero =>
              have := (firstMatchAt_cons_zero p ev rest).mp hfm
              rw [this] at hp'; cases hp'
          | succ m' =>
              obtain ⟨-, hfm'⟩ := (firstMatchAt_cons_succ p ev rest m').mp hfm
              have : waitLoop p rest = some (m' + 1) := (ih (m' + 1)).mpr ⟨m', rfl, hfm'⟩
              rw [this]
              rfl

lemma waitLoop_eq_none_iff (p : NodeEvent → Bool) (q : List NodeEvent) :
    waitLoop p q = none ↔ ∀ ev ∈ q, p ev = false := by
  induction q with
  | nil => simp [waitLoop]
  | cons ev rest ih =>
      by_cases hp : p ev = true
      · simp [waitLoop, hp]
      · have hp' : p ev = false := by
          cases hpe : p ev
          · rfl
          · exact absurd hpe hp
        simp [waitLoop, hp, hp', Option.map_eq_none', ih]

lemma waitLoop_isSome_of_mem (p : NodeEvent → Bool) (q : List NodeEvent) (ev : NodeEvent)
    (h1 : ev ∈ q) (h2 : p ev = true) : (waitLoop p q).isSome = true := by
  cases hw : waitLoop p q with
  | some n => rfl
  | none => rw [waitLoop_eq_none_iff p q |>.mp hw ev h1] at h2; cases h2

/-! ## Lemmas about the broadcast pass of `send_status_event` -/

lemma swapRemove_length {α : Type} (l : List α) (i : Nat) (h : l ≠ []) :
    (swapRemove l i).length = l.length - 1 := by
  obtain ⟨last, hl⟩ := Option.isSome_iff_exists.mp (List.getLast?_isSome.mpr h)
  simp [swapRemove, hl, List.length_dropLast, List.length_set]

lemma swapRemove_cons_succ {α : Type} (c : α) (l : List α) (i : Nat) (h : l ≠ []) :
    swapRemove (c :: l) (i + 1) = c :: swapRemove l i := by
  cases l with
  | nil => exact absurd rfl h
  | cons b bs =>
      obtain ⟨last, hl⟩ := Option.isSome_iff_exists.mp (List.getLast?_isSome.mpr h)
      simp only [swapRemove, List.getLast?_cons_cons, hl]
      have hset : (c :: b :: bs).set (i + 1) last = c :: (b :: bs).set i last := rfl
      rw [hset]
      have hx : ∃ x xs, (b :: bs).set i last = x :: xs := by
        cases i with
        | zero => exact ⟨last, bs, rfl⟩
        | succ j => exact ⟨b, bs.set j last, rfl⟩
      obtain ⟨x, xs, hxeq⟩ := hx
      rw [hxeq, List.dropLast_cons₂]

/-- Index sequence applicable in order by `swap_remove`: each index is in
range for the list length remaining when its turn comes. -/
def ValidIdx : List Nat → Nat → Prop
  | [], _ => True
  | i :: is, n => i < n ∧ ValidIdx is (n - 1)

lemma foldl_swapRemove_map_succ {α : Type} (c : α) (l : List α) (ds : List Nat)
    (h : ValidIdx ds l.length) :
    List.foldl swapRemove (c :: l) (ds.map Nat.succ) = c :: List.foldl swapRemove l ds := by
  induction ds generalizing l with
  | nil => rfl
  | cons d ds ih =>
      obtain ⟨hd, hds⟩ := h
      have hne : l ≠ [] := by
        intro heq
        rw [heq] at hd
        exact absurd hd (by simp)
      simp only [List.map_cons, List.foldl_cons]
      rw [show Nat.succ d = d + 1 from rfl, swapRemove_cons_succ c l d hne]
      have hlen : (swapRemove l d).length = l.length - 1 := swapRemove_length l d hne
      exact ih (swapRemove l d) (by rw [hlen]; exact hds)

lemma markedIdx_lt {α : Type} (p : α → Bool) (l : List α) :
    ∀ i ∈ markedIdx p l, i < l.length := by
  induction l with
  | nil => intro i hi; cases hi
  | cons a l ih =>
      intro i hi
      by_cases hp : p a
      · simp only [markedIdx, if_pos hp, List.mem_cons, List.mem_map] at hi
        rcases hi with rfl | ⟨j, hj, rfl⟩
        · simp
        · have := ih j hj
          simp only [List.length_cons]
          omega
      · simp only [markedIdx, if_neg hp, List.mem_map] at hi
        obtain ⟨j, hj, rfl⟩ := hi
        have := ih j hj
        simp only [List.length_cons]
        omega

lemma markedIdx_sorted {α : Type} (p : α → Bool) (l : List α) :
    (markedIdx p l).Pairwise (· < ·) := by
  induction l with
  | nil => exact List.Pairwise.nil
  | cons a l ih =>
      by_cases hp : p a
      · simp only [markedIdx, if_pos hp]
        refine List.Pairwise.cons ?_ (ih.map _ ?_)
        · intro j hj
          simp only [List.mem_map] at hj
          obtain ⟨i, -, rfl⟩ := hj
          omega
        · intro a b hab
          omega
      · simp only [markedIdx, if_neg hp]
        exact ih.map _ (fun a b hab => by omega)

lemma validIdx_of_descending (ds : List Nat) (n : Nat)
    (hs : ds.Pairwise (· > ·)) (hlt : ∀ i ∈ ds, i < n) : ValidIdx ds n := by
  induction ds generalizing n with
  | nil => trivial
  | cons d ds ih =>
      refine ⟨hlt d (List.mem_cons_self d ds), ?_⟩
      have hd : ∀ i ∈ ds, i < d := fun i hi => List.rel_of_pairwise_cons hs hi
      refine ih (n - 1) hs.of_cons ?_
      intro i hi
      have h1 := hd i hi
      have h2 := hlt d (List.mem_cons_self d ds)
      omega

lemma validIdx_markedIdx_reverse {α : Type} (p : α → Bool) (l : List α) :
    ValidIdx (markedIdx p l).reverse l.length := by
  apply validIdx_of_descending
  · exact List.pairwise_reverse.mpr (markedIdx_sorted p l)
  · intro i hi
    exact markedIdx_lt p l i (List.mem_reverse.mp hi)

lemma swapRemove_zero_cons_perm {α : Type} (a : α) (M : List α) :
    List.Perm (swapRemove (a :: M) 0) M := by
  rcases List.eq_nil_or_concat M with rfl | ⟨M', x, rfl⟩
  · simp [swapRemove]
  · rw [List.concat_eq_append]
    have hlast : (a :: (M' ++ [x])).getLast? = some x := by
      rw [show a :: (M' ++ [x]) = (a :: M') ++ [x] by simp, List.getLast?_concat]
    simp only [swapRemove, hlast]
    have hset : (a :: (M' ++ [x])).set 0 x = x :: (M' ++ [x]) := rfl
    rw [hset, show x :: (M' ++ [x]) = (x :: M') ++ [x] by simp, List.dropLast_concat]
    exact (List.perm_append_singleton x M').symm

lemma foldl_swapRemove_markedIdx_perm {α : Type} (p : α → Bool) (l : List α) :
    List.Perm (List.foldl swapRemove l (markedIdx p l).reverse)
      (l.filter (fun a => !(p a))) := by
  induction l with
  | nil => exact List.Perm.refl _
  | cons a l ih =>
      by_cases hp : p a
      · simp only [markedIdx, if_pos hp, List.reverse_cons, ← List.map_reverse]
        rw [List.foldl_append,
          foldl_swapRemove_map_succ a l _ (validIdx_markedIdx_reverse p l)]
        simp only [List.foldl_cons, List.foldl_nil]
        rw [List.filter_cons_of_neg (by simp [hp])]
        exact List.Perm.trans (swapRemove_zero_cons_perm _ _) ih
      · have hpa : p a = false := by
          cases hx : p a
          · rfl
          · exact absurd hx hp
        simp only [markedIdx, if_neg hp, ← List.map_reverse]
        rw [foldl_swapRemove_map_succ a l _ (validIdx_markedIdx_reverse p l),
          List.filter_cons_of_pos (by simp [hpa])]
        exact ih.cons a

/-! ## Claim theorems -/

/-- C3: processing `WriterLost{w}` removes `w` from the set of every entry of
`readers_to_remote_writers` (and leaves the writer-side map untouched);
`ReaderLost` acts symmetrically on `writers_to_remote_readers`; consequently,
after `RemoteWriterMatched{r, w}` followed by `WriterLost{w}` a fresh node has
`match_count_for_reader(r) = 0`, and if `w` had been matched with two
different local readers `r1` and `r2`, both their counts become 0. -/
theorem claim_C3 :
    (∀ s w k,
      (spin_process_status_event s (.WriterLost w)).readers_to_remote_writers.find? k
        = (s.readers_to_remote_writers.find? k).map (fun st => st.erase w))
  ∧ (∀ s w,
      (spin_process_status_event s (.WriterLost w)).writers_to_remote_readers
        = s.writers_to_remote_readers)
  ∧ (∀ s rr k,
      (spin_process_status_event s (.ReaderLost rr)).writers_to_remote_readers.find? k
        = (s.writers_to_remote_readers.find? k).map (fun st => st.erase rr))
  ∧ (∀ s rr,
      (spin_process_status_event s (.ReaderLost rr)).readers_to_remote_writers
        = s.readers_to_remote_writers)
  ∧ (∀ r w,
      (get_publisher_count (runStatusEvents [.RemoteWriterMatched r w, .WriterLost w]) r).1 = 0)
  ∧ (∀ r1 r2 w, r1 ≠ r2 →
      (get_publisher_count
        (runStatusEvents [.RemoteWriterMatched r1 w, .RemoteWriterMatched r2 w, .WriterLost w])
        r1).1 = 0
    ∧ (get_publisher_count
        (runStatusEvents [.RemoteWriterMatched r1 w, .RemoteWriterMatched r2 w, .WriterLost w])
        r2).1 = 0) := by
  refine ⟨?_, ?_, ?_, ?_, ?_, ?_⟩
  · intro s w k
    simp [spin_process_status_event, MatchMap.find?_removeFromAll]
  · intro s w
    simp [spin_process_status_event]
  · intro s rr k
    simp [spin_process_status_event, MatchMap.find?_removeFromAll]
  · intro s rr
    simp [spin_process_status_event]
  · intro r w
    simp [runStatusEvents, runStatusEventsFrom, List.foldl_cons, List.foldl_nil,
      emptyMatchMaps, spin_process_status_event, MatchMap.insertMatch,
      MatchMap.removeFromAll, get_publisher_count, MatchMap.find?]
  · intro r1 r2 w h
    constructor <;>
      simp [runStatusEvents, runStatusEventsFrom, List.foldl_cons, List.foldl_nil,
        emptyMatchMaps, spin_process_status_event, MatchMap.insertMatch,
        MatchMap.removeFromAll, get_publisher_count, MatchMap.find?, h, Ne.symm h]

/-- C3 witness: the scenario conjuncts instantiated at concrete ids. -/
theorem claim_C3_witness :
    (get_publisher_count
      (runStatusEvents [.RemoteWriterMatched 1 9, .RemoteWriterMatched 2 9, .WriterLost 9])
      1).1 = 0
  ∧ (get_publisher_count
      (runStatusEvents [.RemoteWriterMatched 1 9, .RemoteWriterMatched 2 9, .WriterLost 9])
      2).1 = 0 :=
  claim_C3.2.2.2.2.2 1 2 9 (by decide)

/-- C5: `get_publisher_count` / `get_subscription_count` return 0 with the
`error!` log for an id that is not a key of the respective map, return the
size of the matched set without the error log for a key, and hence an
unknown id and a known id with an empty set yield the same count and differ
only in the log flag. -/
theorem claim_C5 :
    (∀ s id, s.readers_to_remote_writers.find? id = none →
      get_publisher_count s id = (0, true))
  ∧ (∀ s id ws, s.readers_to_remote_writers.find? id = some ws →
      get_publisher_count s id = (ws.card, false))
  ∧ (∀ s id, s.writers_to_remote_readers.find? id = none →
      get_subscription_count s id = (0, true))
  ∧ (∀ s id rs, s.writers_to_remote_readers.find? id = some rs →
      get_subscription_count s id = (rs.card, false))
  ∧ (∀ s s' id id', s.readers_to_remote_writers.find? id = none →
      s'.readers_to_remote_writers.find? id' = some ∅ →
      (get_publisher_count s id).1 = (get_publisher_count s' id').1
    ∧ (get_publisher_count s id).2 ≠ (get_publisher_count s' id').2) := by
  refine ⟨?_, ?_, ?_, ?_, ?_⟩
  · intro s id h
    simp [get_publisher_count, h]
  · intro s id ws h
    simp [get_publisher_count, h]
  · intro s id h
    simp [get_subscription_count, h]
  · intro s id rs h
    simp [get_subscription_count, h]
  · intro s s' id id' h h'
    simp [get_publisher_count, h, h']

/-- C5 witness: an unknown id versus a known id with an empty set. -/
theorem claim_C5_witness :
    (get_publisher_count emptyMatchMaps 3).1
      = (get_publisher_count
          { readers_to_remote_writers := [(4, ∅)], writers_to_remote_readers := [] } 4).1
  ∧ (get_publisher_count emptyMatchMaps 3).2
      ≠ (get_publisher_count
          { readers_to_remote_writers := [(4, ∅)], writers_to_remote_readers := [] } 4).2 :=
  claim_C5.2.2.2.2 emptyMatchMaps
    { readers_to_remote_writers := [(4, ∅)], writers_to_remote_readers := [] }
    3 4 (by decide) (by decide)

/-- C6: every transport status event consumed by a running discovery loop is
re-broadcast as a `NodeEvent::DDS`, including the unrecognized variants, and
an unrecognized variant leaves both Match Tracker maps unchanged. -/
theorem claim_C6 :
    (∀ m e, m.phase = .Running →
      (spinStep m (.transportEvent e)).broadcast = some (.DDS e))
  ∧ (∀ m tag, m.phase = .Running →
      (spinStep m (.transportEvent (.OtherStatus tag))).machine.matchTracker
        = m.matchTracker) := by
  constructor
  · intro m e h
    obtain ⟨ph, mt, en⟩ := m
    cases h
    simp [spinStep]
  · intro m tag h
    obtain ⟨ph, mt, en⟩ := m
    cases h
    simp [spinStep, spin_process_status_event]

/-- C6 witness: a concrete running machine and an unrecognized event. -/
theorem claim_C6_witness :
    (spinStep { phase := .Running, matchTracker := emptyMatchMaps, external_nodes := [] }
      (.transportEvent (.OtherStatus 5))).broadcast = some (.DDS (.OtherStatus 5))
  ∧ (spinStep { phase := .Running, matchTracker := emptyMatchMaps, external_nodes := [] }
      (.transportEvent (.OtherStatus 5))).machine.matchTracker = emptyMatchMaps :=
  ⟨claim_C6.1 _ (.OtherStatus 5) rfl, claim_C6.2 _ 5 rfl⟩

/-- C4: a successfully decoded graph snapshot makes a running loop replace
the External Node Table entry for its participant wholesale — whatever
entry was there before, it is not merged in — leaves the entries of all
other participants unchanged, and broadcasts the snapshot as a
`NodeEvent::ROS`; a decode/transport failure leaves the machine (table
included) unchanged, only raises the `warn!` flag, and the loop continues
running. -/
theorem claim_C4 :
    (∀ m info, m.phase = .Running →
      (spinStep m (.graphUpdate (.ok info))).machine.external_nodes.find? info.gid
        = some info.node_entities_info_seq
    ∧ (∀ p, p ≠ info.gid →
        (spinStep m (.graphUpdate (.ok info))).machine.external_nodes.find? p
          = m.external_nodes.find? p)
    ∧ (spinStep m (.graphUpdate (.ok info))).broadcast = some (.ROS info)
    ∧ (spinStep m (.graphUpdate (.ok info))).machine.phase = .Running
    ∧ (spinStep m (.graphUpdate (.ok info))).warnLogged = false)
  ∧ (∀ m err, m.phase = .Running →
      spinStep m (.graphUpdate (.error err))
        = { machine := m, broadcast := none, warnLogged := true }) := by
  constructor
  · intro m info h
    obtain ⟨ph, mt, en⟩ := m
    cases h
    refine ⟨?_, ?_, rfl, rfl, rfl⟩
    · simp [spinStep, ExtMap.find?_insert_self]
    · intro p hp
      simp [spinStep, ExtMap.find?_insert_ne en info.gid p _ (Ne.symm hp)]
  · intro m err h
    obtain ⟨ph, mt, en⟩ := m
    cases h
    rfl

/-- C4 witness: a snapshot for participant 1 replaces the old entry and an
error leaves the machine unchanged, at a concrete machine. -/
theorem claim_C4_witness :
    (spinStep
        { phase := .Running
          matchTracker := emptyMatchMaps
          external_nodes := [(1, [NodeEntitiesInfo.new "a" "/x"])] }
        (.graphUpdate (.ok { gid := 1, node_entities_info_seq := [] }))).machine.external_nodes.find?
        1 = some []
  ∧ spinStep
        { phase := .Running
          matchTracker := emptyMatchMaps
          external_nodes := [(1, [NodeEntitiesInfo.new "a" "/x"])] }
        (.graphUpdate (.error 7))
      = { machine :=
            { phase := .Running
              matchTracker := emptyMatchMaps
              external_nodes := [(1, [NodeEntitiesInfo.new "a" "/x"])] }
          broadcast := none
          warnLogged := true } :=
  ⟨(claim_C4.1 _ { gid := 1, node_entities_info_seq := [] } rfl).1,
   claim_C4.2 _ 7 rfl⟩

/-- C7: the stop signal moves a running loop to the terminal `Stopped`
phase, in which `spin` has returned `Ok(())` and from which no input is
ever processed again; dropping the node performs a single non-blocking
`try_send` on the capacity-1 stop channel — when the channel is full or
closed the send fails, the failure is only logged and the channel is left
unchanged, and when the channel is free exactly one message is enqueued. -/
theorem claim_C7 :
    (∀ m, m.phase = .Running →
      (spinStep m .stopSignal).machine.phase = .Stopped
    ∧ spin_return_value (spinStep m .stopSignal).machine.phase = some (.ok ())
    ∧ (spinStep m .stopSignal).machine.matchTracker = m.matchTracker
    ∧ (spinStep m .stopSignal).machine.external_nodes = m.external_nodes)
  ∧ (∀ m i, m.phase = .Stopped →
      spinStep m i = { machine := m, broadcast := none, warnLogged := false })
  ∧ (∀ m is, m.phase = .Stopped → spinRun m is = m)
  ∧ (∀ ch, ch.closed = true ∨ 1 ≤ ch.queued → drop_node_stop_notify ch = (ch, true))
  ∧ (∀ ch, ch.closed = false → ch.queued = 0 →
      drop_node_stop_notify ch = ({ ch with queued := 1 }, false)) := by
  have habs : ∀ (m : SpinMachine) (i : SpinInput), m.phase = .Stopped →
      spinStep m i = { machine := m, broadcast := none, warnLogged := false } := by
    intro m i h
    obtain ⟨ph, mt, en⟩ := m
    cases h
    rfl
  refine ⟨?_, habs, ?_, ?_, ?_⟩
  · intro m h
    obtain ⟨ph, mt, en⟩ := m
    cases h
    exact ⟨rfl, rfl, rfl, rfl⟩
  · intro m is h
    induction is with
    | nil => rfl
    | cons i is ih =>
        show spinRun (spinStep m i).machine is = m
        rw [habs m i h]
        exact ih
  · intro ch h
    obtain ⟨q, c⟩ := ch
    rcases h with h | h
    · cases h
      simp [drop_node_stop_notify, stop_try_send]
    · simp only at h
      cases c <;> simp [drop_node_stop_notify, stop_try_send, h]
  · intro ch h1 h2
    obtain ⟨q, c⟩ := ch
    simp only at h1 h2
    cases h1
    cases h2
    simp [drop_node_stop_notify, stop_try_send]

/-- C7 witness: stop from a concrete running machine; stopped machine
ignoring an input; failed and successful drop notifications. -/
theorem claim_C7_witness :
    (spinStep { phase := .Running, matchTracker := emptyMatchMaps, external_nodes := [] }
      .stopSignal).machine.phase = .Stopped
  ∧ spinRun { phase := .Stopped, matchTracker := emptyMatchMaps, external_nodes := [] }
      [.stopSignal, .transportEvent (.OtherStatus 0)]
      = { phase := .Stopped, matchTracker := emptyMatchMaps, external_nodes := [] }
  ∧ drop_node_stop_notify { queued := 1, closed := false }
      = ({ queued := 1, closed := false }, true)
  ∧ drop_node_stop_notify { queued := 0, closed := false }
      = ({ queued := 1, closed := false }, false) :=
  ⟨(claim_C7.1 _ rfl).1,
   claim_C7.2.2.1 _ _ rfl,
   claim_C7.2.2.2.1 _ (Or.inr (by decide)),
   claim_C7.2.2.2.2 _ rfl rfl⟩

/-- C8: `WriterLost` and `ReaderLost` never remove a key from either match
map — the key lists are preserved exactly — and only shrink the stored
sets; consequently, a key exists in the map for every local endpoint for
which at least one match event has ever been observed. -/
theorem claim_C8 :
    (∀ s g,
      (spin_process_status_event s (.WriterLost g)).readers_to_remote_writers.keys
        = s.readers_to_remote_writers.keys
    ∧ (spin_process_status_event s (.WriterLost g)).writers_to_remote_readers.keys
        = s.writers_to_remote_readers.keys)
  ∧ (∀ s g,
      (spin_process_status_event s (.ReaderLost g)).readers_to_remote_writers.keys
        = s.readers_to_remote_writers.keys
    ∧ (spin_process_status_event s (.ReaderLost g)).writers_to_remote_readers.keys
        = s.writers_to_remote_readers.keys)
  ∧ (∀ s g k st st',
      s.readers_to_remote_writers.find? k = some st →
      (spin_process_status_event s (.WriterLost g)).readers_to_remote_writers.find? k
        = some st' →
      st' ⊆ st)
  ∧ (∀ s g k st st',
      s.writers_to_remote_readers.find? k = some st →
      (spin_process_status_event s (.ReaderLost g)).writers_to_remote_readers.find? k
        = some st' →
      st' ⊆ st)
  ∧ (∀ es s r w, DomainParticipantStatusEvent.RemoteWriterMatched r w ∈ es →
      (runStatusEventsFrom s es).readers_to_remote_writers.hasKey r = true)
  ∧ (∀ es s lw rr, DomainParticipantStatusEvent.RemoteReaderMatched lw rr ∈ es →
      (runStatusEventsFrom s es).writers_to_remote_readers.hasKey lw = true) := by
  refine ⟨?_, ?_, ?_, ?_, ?_, ?_⟩
  · intro s g
    exact ⟨MatchMap.keys_removeFromAll _ g, rfl⟩
  · intro s g
    exact ⟨rfl, MatchMap.keys_removeFromAll _ g⟩
  · intro s g k st st' h1 h2
    rw [show (spin_process_status_event s (.WriterLost g)).readers_to_remote_writers
          = s.readers_to_remote_writers.removeFromAll g from rfl,
      MatchMap.find?_removeFromAll, h1, Option.map_some'] at h2
    injection h2 with h2
    rw [← h2]
    exact Finset.erase_subset g st
  · intro s g k st st' h1 h2
    rw [show (spin_process_status_event s (.ReaderLost g)).writers_to_remote_readers
          = s.writers_to_remote_readers.removeFromAll g from rfl,
      MatchMap.find?_removeFromAll, h1, Option.map_some'] at h2
    injection h2 with h2
    rw [← h2]
    exact Finset.erase_subset g st
  · intro es s r w h
    induction es generalizing s with
    | nil => cases h
    | cons e es ih =>
        rcases List.mem_cons.mp h with rfl | hmem
        · refine hasKey_reader_run_mono es _ r ?_
          simpa [spin_process_status_event] using
            MatchMap.hasKey_insertMatch_self s.readers_to_remote_writers r w
        · exact ih _ hmem
  · intro es s lw rr h
    induction es generalizing s with
    | nil => cases h
    | cons e es ih =>
        rcases List.mem_cons.mp h with rfl | hmem
        · refine hasKey_writer_run_mono es _ lw ?_
          simpa [spin_process_status_event] using
            MatchMap.hasKey_insertMatch_self s.writers_to_remote_readers lw rr
        · exact ih _ hmem

/-- C8 witness: concrete loss events — the set shrinks, the key stays. -/
theorem claim_C8_witness :
    ∅ ⊆ ({2} : Finset GUID)
  ∧ (runStatusEventsFrom emptyMatchMaps
      [.RemoteWriterMatched 1 2, .WriterLost 2]).readers_to_remote_writers.hasKey 1 = true :=
  ⟨claim_C8.2.2.1 { readers_to_remote_writers := [(1, {2})], writers_to_remote_readers := [] }
      2 1 {2} ∅ (by decide) (by decide),
   claim_C8.2.2.2.2.1 [.RemoteWriterMatched 1 2, .WriterLost 2] emptyMatchMaps 1 2 (by decide)⟩

/-- C9: registering an already-registered id is a no-op on the owned set —
the registry state and the regenerated descriptor after the second call
with the same id equal those after the first — and every call (the
repeated one included) hands the regenerated descriptor of its
post-insertion state to the discovery layer. -/
theorem claim_C9 :
    (∀ n r, r ∈ n.readers → add_reader n r = (n, generate_node_info n))
  ∧ (∀ n r, (add_reader (add_reader n r).1 r).1 = (add_reader n r).1
          ∧ (add_reader (add_reader n r).1 r).2 = (add_reader n r).2)
  ∧ (∀ n r, (add_reader n r).2 = generate_node_info (add_reader n r).1)
  ∧ (∀ n w, w ∈ n.writers → add_writer n w = (n, generate_node_info n))
  ∧ (∀ n w, (add_writer (add_writer n w).1 w).1 = (add_writer n w).1
          ∧ (add_writer (add_writer n w).1 w).2 = (add_writer n w).2)
  ∧ (∀ n w, (add_writer n w).2 = generate_node_info (add_writer n w).1) := by
  refine ⟨?_, ?_, fun n r => rfl, ?_, ?_, fun n w => rfl⟩
  · intro n r h
    have hins : insert r n.readers = n.readers := Finset.insert_eq_self.mpr h
    simp [add_reader, hins]
  · intro n r
    have hins : insert r (insert r n.readers) = insert r n.readers :=
      Finset.insert_idem r n.readers
    constructor <;> simp [add_reader, hins]
  · intro n w h
    have hins : insert w n.writers = n.writers := Finset.insert_eq_self.mpr h
    simp [add_writer, hins]
  · intro n w
    have hins : insert w (insert w n.writers) = insert w n.writers :=
      Finset.insert_idem w n.writers
    constructor <;> simp [add_writer, hins]

/-- C9 witness: re-registering reader 1 on a registry that owns it. -/
theorem claim_C9_witness :
    add_reader
        { name := "n", node_namespace := "/ns", readers := {1}, writers := ∅,
          rosout_writer := none, parameter_events_writer := 0 } 1
      = ({ name := "n", node_namespace := "/ns", readers := {1}, writers := ∅,
           rosout_writer := none, parameter_events_writer := 0 },
         generate_node_info
           { name := "n", node_namespace := "/ns", readers := {1}, writers := ∅,
             rosout_writer := none, parameter_events_writer := 0 }) :=
  claim_C9.1 _ 1 (by decide)

/-- C10: processing the same match event twice yields exactly the state of
processing it once — also inside a longer event sequence — and therefore
the match counts equal the number of distinct matched remote endpoints, no
matter how many duplicate match events were delivered. -/
theorem claim_C10 :
    (∀ s r w,
      spin_process_status_event (spin_process_status_event s (.RemoteWriterMatched r w))
          (.RemoteWriterMatched r w)
        = spin_process_status_event s (.RemoteWriterMatched r w))
  ∧ (∀ s lw rr,
      spin_process_status_event (spin_process_status_event s (.RemoteReaderMatched lw rr))
          (.RemoteReaderMatched lw rr)
        = spin_process_status_event s (.RemoteReaderMatched lw rr))
  ∧ (∀ s es1 es2 r w,
      runStatusEventsFrom s
          (es1 ++ .RemoteWriterMatched r w :: .RemoteWriterMatched r w :: es2)
        = runStatusEventsFrom s (es1 ++ .RemoteWriterMatched r w :: es2))
  ∧ (∀ s es1 es2 lw rr,
      runStatusEventsFrom s
          (es1 ++ .RemoteReaderMatched lw rr :: .RemoteReaderMatched lw rr :: es2)
        = runStatusEventsFrom s (es1 ++ .RemoteReaderMatched lw rr :: es2))
  ∧ (∀ (r : GUID) (ws : List GUID),
      (get_publisher_count
          (runStatusEvents (ws.map (DomainParticipantStatusEvent.RemoteWriterMatched r))) r).1
        = ws.toFinset.card)
  ∧ (∀ (lw : GUID) (rs : List GUID),
      (get_subscription_count
          (runStatusEvents (rs.map (DomainParticipantStatusEvent.RemoteReaderMatched lw))) lw).1
        = rs.toFinset.card) := by
  have hidemW : ∀ s r w,
      spin_process_status_event (spin_process_status_event s (.RemoteWriterMatched r w))
          (.RemoteWriterMatched r w)
        = spin_process_status_event s (.RemoteWriterMatched r w) := by
    intro s r w
    simp [spin_process_status_event, MatchMap.insertMatch_idem]
  have hidemR : ∀ s lw rr,
      spin_process_status_event (spin_process_status_event s (.RemoteReaderMatched lw rr))
          (.RemoteReaderMatched lw rr)
        = spin_process_status_event s (.RemoteReaderMatched lw rr) := by
    intro s lw rr
    simp [spin_process_status_event, MatchMap.insertMatch_idem]
  refine ⟨hidemW, hidemR, ?_, ?_, ?_, ?_⟩
  · intro s es1 es2 r w
    rw [runStatusEventsFrom_append, runStatusEventsFrom_append, runStatusEventsFrom_cons,
      runStatusEventsFrom_cons, runStatusEventsFrom_cons, hidemW]
  · intro s es1 es2 lw rr
    rw [runStatusEventsFrom_append, runStatusEventsFrom_append, runStatusEventsFrom_cons,
      runStatusEventsFrom_cons, runStatusEventsFrom_cons, hidemR]
  · intro r ws
    cases ws with
    | nil =>
        simp [runStatusEvents, runStatusEventsFrom, emptyMatchMaps, get_publisher_count,
          MatchMap.find?]
    | cons w ws =>
        rw [runStatusEvents, foldl_matched_writers]
        have h := foldl_insertMatch_from_nil r (w :: ws)
        simp only [List.isEmpty_cons, Bool.false_eq_true, if_false] at h
        simp [get_publisher_count, emptyMatchMaps, h, MatchMap.find?]
  · intro lw rs
    cases rs with
    | nil =>
        simp [runStatusEvents, runStatusEventsFrom, emptyMatchMaps, get_subscription_count,
          MatchMap.find?]
    | cons rr rs =>
        rw [runStatusEvents, foldl_matched_readers]
        have h := foldl_insertMatch_from_nil lw (rr :: rs)
        simp only [List.isEmpty_cons, Bool.false_eq_true, if_false] at h
        simp [get_subscription_count, emptyMatchMaps, h, MatchMap.find?]

/-- C1: `wait_for_writer` subscribes first and checks the Match Tracker only
afterwards; when the tracked set for the awaited reader is already
non-empty it returns immediately, consuming no events; otherwise it returns
exactly upon the first `RemoteWriterMatched` event on the consumer handle
whose `local_reader` equals the awaited id, discarding every other event;
composed with the discovery loop, a match event for the awaited reader
arriving at or after the subscription point therefore always makes the wait
return, whenever the map check happens afterwards.  `wait_for_reader`
behaves symmetrically for `RemoteReaderMatched` and `local_writer`. -/
theorem claim_C1 :
    (∀ s reader q, readerAlreadyPresent s reader = true →
      wait_for_writer s reader q = some 0)
  ∧ (∀ s reader q n, readerAlreadyPresent s reader = false →
      (wait_for_writer s reader q = some n ↔
        ∃ m, n = m + 1 ∧ firstMatchAt (matchesRemoteWriterFor reader) q m))
  ∧ (∀ es k k' reader w j, k ≤ k' → k ≤ j →
      es[j]? = some (.RemoteWriterMatched reader w) →
      (waitForWriterScenario es k k' reader).isSome = true)
  ∧ (∀ s writer q, writerAlreadyPresent s writer = true →
      wait_for_reader s writer q = some 0)
  ∧ (∀ s writer q n, writerAlreadyPresent s writer = false →
      (wait_for_reader s writer q = some n ↔
        ∃ m, n = m + 1 ∧ firstMatchAt (matchesRemoteReaderFor writer) q m)) := by
  refine ⟨?_, ?_, ?_, ?_, ?_⟩
  · intro s reader q h
    simp [wait_for_writer, h]
  · intro s reader q n h
    simp only [wait_for_writer, h, Bool.false_eq_true, if_false]
    exact waitLoop_eq_some_iff _ q n
  · intro es k k' reader w j hk hj hev
    have hdrop : (es.drop k)[j - k]? = some (.RemoteWriterMatched reader w) := by
      rw [List.getElem?_drop]
      rw [show k + (j - k) = j by omega]
      exact hev
    have hmem : DomainParticipantStatusEvent.RemoteWriterMatched reader w ∈ es.drop k := by
      obtain ⟨hn, heq⟩ := List.getElem?_eq_some.mp hdrop
      rw [← heq]
      exact List.getElem_mem hn
    have hmem' : NodeEvent.DDS (.RemoteWriterMatched reader w) ∈ (es.drop k).map NodeEvent.DDS :=
      List.mem_map_of_mem _ hmem
    unfold waitForWriterScenario wait_for_writer
    by_cases hp : readerAlreadyPresent (runStatusEvents (es.take k')) reader
    · simp [hp]
    · simp only [hp, Bool.false_eq_true, if_false]
      exact waitLoop_isSome_of_mem _ _ _ hmem' (by simp [matchesRemoteWriterFor])
  · intro s writer q h
    simp [wait_for_reader, h]
  · intro s writer q n h
    simp only [wait_for_reader, h, Bool.false_eq_true, if_false]
    exact waitLoop_eq_some_iff _ q n

/-- C1 witness: immediate return with a non-empty tracked set; return on
the first matching event with an empty one; the scenario composition at a
concrete event trace. -/
theorem claim_C1_witness :
    wait_for_writer { readers_to_remote_writers := [(3, {7})], writers_to_remote_readers := [] }
        3 [] = some 0
  ∧ wait_for_writer emptyMatchMaps 3
        [NodeEvent.DDS (.OtherStatus 0), NodeEvent.DDS (.RemoteWriterMatched 3 7)] = some 2
  ∧ (waitForWriterScenario [.RemoteWriterMatched 5 9] 0 0 5).isSome = true
  ∧ wait_for_reader { readers_to_remote_writers := [], writers_to_remote_readers := [(4, {8})] }
        4 [] = some 0
  ∧ wait_for_reader emptyMatchMaps 4
        [NodeEvent.DDS (.RemoteReaderMatched 4 8)] = some 1 :=
  ⟨claim_C1.1 _ 3 [] (by decide),
   (claim_C1.2.1 emptyMatchMaps 3
      [NodeEvent.DDS (.OtherStatus 0), NodeEvent.DDS (.RemoteWriterMatched 3 7)] 2
      (by decide)).mpr
     ⟨1, rfl, ⟨NodeEvent.DDS (.RemoteWriterMatched 3 7), by decide, by decide⟩,
      by
        intro i hi ev hev
        interval_cases i
        · simp only [List.getElem?_cons_zero, Option.some.injEq] at hev
          rw [← hev]
          decide⟩,
   claim_C1.2.2.1 [.RemoteWriterMatched 5 9] 0 0 5 9 0 (by decide) (by decide) (by decide),
   claim_C1.2.2.2.1 _ 4 [] (by decide),
   (claim_C1.2.2.2.2 emptyMatchMaps 4 [NodeEvent.DDS (.RemoteReaderMatched 4 8)] 1
      (by decide)).mpr
     ⟨0, rfl, ⟨NodeEvent.DDS (.RemoteReaderMatched 4 8), by decide, by decide⟩,
      fun i hi => absurd hi (Nat.not_lt_zero i)⟩⟩

/-- C2: `send_status_event` try-sends the event at most once to every
consumer in the list — an open consumer with queue room receives exactly
one copy, a full consumer is silently skipped and keeps its queue, a
closed consumer is left unchanged and marked — and after the full pass the
surviving list holds exactly the non-closed consumers with their post-send
queues, the marked (closed) ones having been removed. -/
theorem claim_C2 :
    (∀ senders e,
      List.Perm (send_status_event senders e)
        ((senders.map (attemptSend e)).filter (fun c => !c.closed)))
  ∧ (∀ c e, c.closed = false → c.queue.length < c.capacity →
      attemptSend e c = { c with queue := c.queue ++ [e] })
  ∧ (∀ c e, c.closed = false → c.capacity ≤ c.queue.length →
      attemptSend e c = c)
  ∧ (∀ c e, c.closed = true → attemptSend e c = c) := by
  refine ⟨?_, ?_, ?_, ?_⟩
  · intro senders e
    have hcl : ∀ c, (attemptSend e c).closed = c.closed := by
      intro c
      simp only [attemptSend, Consumer.try_send]
      split_ifs <;> rfl
    have hmark : markedIdx (fun c => c.closed) senders
        = markedIdx (fun c => c.closed) (senders.map (attemptSend e)) := by
      induction senders with
      | nil => rfl
      | cons c cs ih =>
          by_cases hc : c.closed <;>
            simp [markedIdx, hcl, hc, ih]
    unfold send_status_event
    rw [hmark]
    exact foldl_swapRemove_markedIdx_perm (fun c => c.closed) (senders.map (attemptSend e))
  · intro c e h1 h2
    simp [attemptSend, Consumer.try_send, h1, Nat.not_le.mpr h2]
  · intro c e h1 h2
    simp [attemptSend, Consumer.try_send, h1, h2]
  · intro c e h1
    simp [attemptSend, Consumer.try_send, h1]

/-- C2 witness: one broadcast over an open, a full, and a closed consumer. -/
theorem claim_C2_witness :
    List.Perm
      (send_status_event
        [{ queue := [], capacity := 8, closed := false },
         { queue := [NodeEvent.DDS (.OtherStatus 1)], capacity := 1, closed := false },
         { queue := [], capacity := 8, closed := true }]
        (NodeEvent.DDS (.OtherStatus 0)))
      (([{ queue := [], capacity := 8, closed := false },
         { queue := [NodeEvent.DDS (.OtherStatus 1)], capacity := 1, closed := false },
         { queue := [], capacity := 8, closed := true }].map
           (attemptSend (NodeEvent.DDS (.OtherStatus 0)))).filter (fun c => !c.closed))
  ∧ attemptSend (NodeEvent.DDS (.OtherStatus 0)) { queue := [], capacity := 8, closed := false }
      = { queue := [NodeEvent.DDS (.OtherStatus 0)], capacity := 8, closed := false }
  ∧ attemptSend (NodeEvent.DDS (.OtherStatus 0))
        { queue := [NodeEvent.DDS (.OtherStatus 1)], capacity := 1, closed := false }
      = { queue := [NodeEvent.DDS (.OtherStatus 1)], capacity := 1, closed := false }
  ∧ attemptSend (NodeEvent.DDS (.OtherStatus 0)) { queue := [], capacity := 8, closed := true }
      = { queue := [], capacity := 8, closed := true } :=
  ⟨claim_C2.1 _ _,
   claim_C2.2.1 _ _ rfl (by decide),
   claim_C2.2.2.1 _ _ rfl (by decide),
   claim_C2.2.2.2 _ _ rfl⟩

end Ros2Client
